import Mathlib

/-!
Shallow embedding of `src/graphix_mentpy_interface/mentpy_interface.py`,
the adapter between graphix patterns and MentPy MBQC circuits.

The adapter is a pure data-shape translator.  The external collaborators
(graphix pattern engine, flow finders, MentPy circuit object) are out of
scope per the specification; their observable results enter the embedding
as explicit record fields (oracle inputs), following the interface
contracts of the specification.  Python floats are modelled as rationals,
Python dicts as association lists in insertion order, and raised
exceptions as `Except` errors.
-/

namespace GraphixMentpy

/-- Measurement planes of the graphix library (`graphix.fundamentals.Plane`). -/
inductive Plane where
  | XY
  | YZ
  | XZ
deriving DecidableEq

/-- MentPy plane labels are Python strings.  We model the label strings the
adapter inspects (the three plane names and the three axis names), plus a
representative constructor for every other string. -/
inductive PlaneLabel where
  | XY
  | YZ
  | XZ
  | X
  | Y
  | Z
  | other (n : Nat)
deriving DecidableEq

/-- Line 61 of the source: `str(plane).split(".")[1]` renders a graphix plane
as its short string label `XY`, `YZ` or `XZ`. -/
def Plane.planeStr : Plane → PlaneLabel
  | Plane.XY => PlaneLabel.XY
  | Plane.YZ => PlaneLabel.YZ
  | Plane.XZ => PlaneLabel.XZ

/-- A symbolic angle (`graphix.parameter.Expression`): a deferred expression,
opaque to the adapter.  The identifier distinguishes distinct expressions. -/
structure GExpr where
  id : Nat
deriving DecidableEq

/-- A graphix measurement angle (`ExpressionOrFloat`): either a concrete
number (Python float, modelled as a rational) or a symbolic expression. -/
inductive GAngle where
  | num (q : ℚ)
  | expr (e : GExpr)
deriving DecidableEq

/-- Python exceptions raised by the adapter or by builtin coercions. -/
inductive PyError where
  | notImplementedError
  | valueError
  | typeError
  | keyError
deriving DecidableEq

/-- Equality of `Except` results is decidable when both component types
have decidable equality; this lets concrete runs of the embedded functions
be checked by `decide`. -/
instance instDecEqExcept {ε α : Type} [DecidableEq ε] [DecidableEq α] :
    DecidableEq (Except ε α) := fun x y =>
  match x, y with
  | Except.error a, Except.error b =>
      if h : a = b then Decidable.isTrue (congrArg Except.error h)
      else Decidable.isFalse (fun hc => h (Except.error.inj hc))
  | Except.ok a, Except.ok b =>
      if h : a = b then Decidable.isTrue (congrArg Except.ok h)
      else Decidable.isFalse (fun hc => h (Except.ok.inj hc))
  | Except.error _, Except.ok _ => Decidable.isFalse (fun hc => Except.noConfusion hc)
  | Except.ok _, Except.error _ => Decidable.isFalse (fun hc => Except.noConfusion hc)

/-- Python values that can hold a MentPy `Ment` angle: `None`, a boolean
(the source passes the literal `False`), a concrete number, or a symbolic
expression. -/
inductive MpAngle where
  | none
  | bool (b : Bool)
  | num (q : ℚ)
  | expr (e : GExpr)
deriving DecidableEq

/-- A MentPy measurement descriptor `mp.Ment(angle, plane)`: an angle value
and a plane label string. -/
structure Ment where
  angle : MpAngle
  plane : PlaneLabel
deriving DecidableEq

/-- A graphix `Measurement(angle, plane)` as produced by the adapter: the
angle is the Python value the adapter passes in, the plane a graphix plane. -/
structure Measurement where
  angle : MpAngle
  plane : Plane
deriving DecidableEq

/-- The view of a graphix `Pattern` that `graphix_pattern_to_mentpy` reads
(after `copy` and `shift_signals`): the induced graph from `get_graph`,
the input and output node accessors, the `get_meas_plane()` dict items and
the `get_angles()` dict, both in iteration order. -/
structure PatternData where
  nodes : List Nat
  edges : List (Nat × Nat)
  input_nodes : Option (List Nat)
  output_nodes : List Nat
  meas_planes : List (Nat × Plane)
  meas_angles : List (Nat × GAngle)
deriving DecidableEq

/-- Results of the two external flow finders `find_flow` and `find_gflow`
(first component of each returned pair).  Modelled from the specification:
each existence check returns an optional ordering witness; the witness is
the correction-function map, an association list that may be empty. -/
structure FlowOracle where
  flow : Option (List (Nat × Nat))
  gflow : Option (List (Nat × List Nat))
deriving DecidableEq

/-- Python truthiness of an optional dict value: `None` is falsy and a dict
is truthy exactly when it is nonempty. -/
def pyTruthy {α : Type} : Option (List α) → Bool
  | Option.none => false
  | Option.some l => !l.isEmpty

/-- The MentPy `MBQCircuit` the adapter constructs: graph, node roles and
the measurement dict (MentPy allows `None` entries, hence the option). -/
structure MBQCircuit where
  graph_nodes : List Nat
  graph_edges : List (Nat × Nat)
  input_nodes : List Nat
  output_nodes : List Nat
  measurements : List (Nat × Option Ment)
deriving DecidableEq

/-- Python values inspected by `isinstance(x, Expression)` on line 57: the
generator `for angle in meas_angles` iterates the `get_angles()` dict,
which yields its keys (integer node indices), never the angle values. -/
inductive PyVal where
  | int (n : Nat)
  | angle (a : GAngle)
deriving DecidableEq

/-- Python `isinstance(x, Expression)`: true exactly on symbolic expression
values; an integer key is never an `Expression`. -/
def pyIsinstanceExpression : PyVal → Bool
  | PyVal.int _ => false
  | PyVal.angle (GAngle.expr _) => true
  | PyVal.angle (GAngle.num _) => false

/-- Line 57 of the source:
`any(isinstance(angle, Expression) for angle in meas_angles)`.
Iterating the Python dict `meas_angles` yields its keys, so the test runs
over the integer node indices. -/
def expressionGuard (meas_angles : List (Nat × GAngle)) : Bool :=
  (meas_angles.map Prod.fst).any (fun k => pyIsinstanceExpression (PyVal.int k))

/-- The guard the specification describes: a test of the angle values of
the `get_angles()` dict for symbolic expressions. -/
def valueExpressionGuard (meas_angles : List (Nat × GAngle)) : Bool :=
  (meas_angles.map Prod.snd).any (fun a => pyIsinstanceExpression (PyVal.angle a))

/-- Python `float(x)` on an angle value: a concrete number converts to
itself; a symbolic expression is not convertible to a float (modelled from
the specification: a symbolic angle is not a concrete number), raising a
TypeError. -/
def pyFloat : GAngle → Except PyError ℚ
  | GAngle.num q => Except.ok q
  | GAngle.expr _ => Except.error PyError.typeError

/-- Lines 61 and 64 to 66 of the source, for one node of the plane dict:
render the plane label, look the angle up in the angle dict (a missing key
raises KeyError), and build the descriptor.  Line 64 reads
`if angle := float(meas_angles[i]) == 0.0 and plane_str == "XY":`;
the walrus operator binds `angle` to the whole conjunction, a boolean, so
the descriptor angle is `None` when the conjunction holds and the boolean
`False` otherwise — the numeric angle is never stored. -/
def mentForNode (angles : List (Nat × GAngle)) (i : Nat) (plane : Plane) :
    Except PyError Ment :=
  match angles.lookup i with
  | Option.none => Except.error PyError.keyError
  | Option.some a =>
      match pyFloat a with
      | Except.error e => Except.error e
      | Except.ok q =>
          if q = 0 ∧ Plane.planeStr plane = PlaneLabel.XY then
            Except.ok (Ment.mk MpAngle.none (Plane.planeStr plane))
          else
            Except.ok (Ment.mk (MpAngle.bool false) (Plane.planeStr plane))

/-- The measurement-building loop of lines 60 to 66: iterate the plane dict
items, skip output nodes, and insert a descriptor for every other node. -/
def buildMeasurements (vout : List Nat) (angles : List (Nat × GAngle)) :
    List (Nat × Plane) → Except PyError (List (Nat × Option Ment))
  | [] => Except.ok []
  | (i, plane) :: rest =>
      if i ∈ vout then
        buildMeasurements vout angles rest
      else
        match mentForNode angles i plane with
        | Except.error e => Except.error e
        | Except.ok m =>
            match buildMeasurements vout angles rest with
            | Except.error e => Except.error e
            | Except.ok tail => Except.ok ((i, Option.some m) :: tail)

/-- The pattern-to-circuit converter `graphix_pattern_to_mentpy` (lines 27
to 73).  The two flow finders are external; their results are supplied by
the oracle.  Line 69 tests `not (flow or g_flow)` with Python truthiness,
so a present-but-empty witness counts as absent. -/
def graphix_pattern_to_mentpy (p : PatternData) (oracle : FlowOracle) :
    Except PyError MBQCircuit :=
  let vin := p.input_nodes.getD []
  let vout := p.output_nodes
  if expressionGuard p.meas_angles then
    Except.error PyError.notImplementedError
  else
    match buildMeasurements vout p.meas_angles p.meas_planes with
    | Except.error e => Except.error e
    | Except.ok measurements =>
        if !(pyTruthy oracle.flow || pyTruthy oracle.gflow) then
          Except.error PyError.valueError
        else
          Except.ok (MBQCircuit.mk p.nodes p.edges vin vout measurements)

/-- Line 93 of the source: the plane-label conversion dict of
`mentpy_to_graphix_pattern`; lookup of a label not in the dict yields
nothing. -/
def conversion_dict : PlaneLabel → Option Plane
  | PlaneLabel.XY => Option.some Plane.XY
  | PlaneLabel.YZ => Option.some Plane.YZ
  | PlaneLabel.XZ => Option.some Plane.XZ
  | PlaneLabel.X => Option.some Plane.XZ
  | PlaneLabel.Y => Option.some Plane.YZ
  | PlaneLabel.Z => Option.some Plane.XZ
  | PlaneLabel.other _ => Option.none

/-- Python `isinstance(x, ExpressionOrFloat)` on line 97: true for a float
or a symbolic expression; `None` is neither, and a Python boolean is an
int, not a float. -/
def isinstanceExpressionOrFloat : MpAngle → Bool
  | MpAngle.num _ => true
  | MpAngle.expr _ => true
  | MpAngle.none => false
  | MpAngle.bool _ => false

/-- Line 97 of the source:
`angle = measurement.angle if isinstance(measurement.angle, ExpressionOrFloat) else 0.0`. -/
def coerceAngle (a : MpAngle) : MpAngle :=
  if isinstanceExpressionOrFloat a then a else MpAngle.num 0

/-- The measurement-conversion loop of lines 94 to 101: iterate the circuit
measurement dict, skip `None` entries, coerce the angle, and reject any
descriptor whose plane label is not in `conversion_dict`. -/
def buildGraphixMeasurements :
    List (Nat × Option Ment) → Except PyError (List (Nat × Measurement))
  | [] => Except.ok []
  | (index, m) :: rest =>
      match m with
      | Option.none => buildGraphixMeasurements rest
      | Option.some ment =>
          let angle := coerceAngle ment.angle
          match conversion_dict ment.plane with
          | Option.none => Except.error PyError.valueError
          | Option.some plane =>
              match buildGraphixMeasurements rest with
              | Except.error e => Except.error e
              | Except.ok tail => Except.ok ((index, Measurement.mk angle plane) :: tail)

/-- The open-graph value assembled on line 102; the subsequent calls
`to_pattern` and `standardize` are delegated to the external open-graph
collaborator and are not part of the adapter logic. -/
structure OpenGraphData where
  graph_nodes : List Nat
  graph_edges : List (Nat × Nat)
  measurements : List (Nat × Measurement)
  inputs : List Nat
  outputs : List Nat
deriving DecidableEq

/-- The circuit-to-pattern converter `mentpy_to_graphix_pattern` (lines 76
to 105), up to the external open-graph pattern generation. -/
def mentpy_to_graphix_pattern (c : MBQCircuit) : Except PyError OpenGraphData :=
  match buildGraphixMeasurements c.measurements with
  | Except.error e => Except.error e
  | Except.ok ms =>
      Except.ok (OpenGraphData.mk c.graph_nodes c.graph_edges ms c.input_nodes c.output_nodes)

/-- Graphix Pauli labels (`graphix.pauli.Pauli`). -/
inductive Pauli where
  | I
  | X
  | Y
  | Z
deriving DecidableEq

/-- Lines 132 to 142 of the source: decode one character of a generator
string, in the branch order of the code. -/
def pauliOfChar (c : Char) : Except PyError Pauli :=
  if c = 'X' then Except.ok Pauli.X
  else if c = 'Y' then Except.ok Pauli.Y
  else if c = 'Z' then Except.ok Pauli.Z
  else if c = 'I' then Except.ok Pauli.I
  else Except.error PyError.valueError

/-- The total character-to-Pauli table used to state what the decoder
returns on well-formed input. -/
def charPauli (c : Char) : Pauli :=
  if c = 'X' then Pauli.X
  else if c = 'Y' then Pauli.Y
  else if c = 'Z' then Pauli.Z
  else Pauli.I

/-- A character the decoder accepts. -/
def goodChar (c : Char) : Bool :=
  c = 'X' || c = 'Y' || c = 'Z' || c = 'I'

/-- The inner loop of lines 129 to 143: decode the character sequence of
one generator string, in order, stopping at the first bad character. -/
def decodeGenerator : List Char → Except PyError (List Pauli)
  | [] => Except.ok []
  | c :: rest =>
      match pauliOfChar c with
      | Except.error e => Except.error e
      | Except.ok p =>
          match decodeGenerator rest with
          | Except.error e => Except.error e
          | Except.ok tail => Except.ok (p :: tail)

/-- The Pauli decoder `_mentpy_pauli_to_graphix_pauli` (lines 108 to 144):
each generator is taken through `list(str(generator))`, so the input is the
list of character sequences of the generator strings. -/
def _mentpy_pauli_to_graphix_pauli :
    List (List Char) → Except PyError (List (List Pauli))
  | [] => Except.ok []
  | g :: rest =>
      match decodeGenerator g with
      | Except.error e => Except.error e
      | Except.ok out =>
          match _mentpy_pauli_to_graphix_pauli rest with
          | Except.error e => Except.error e
          | Except.ok tail => Except.ok (out :: tail)

/-- Modelled from the spec: the two external MentPy services used by
`calculate_lie_algebra` are not in src.  Per the interface contract, the
circuit exposes a trainable-node accessor reporting the trainable nodes of
the converted circuit (empty when the circuit carries none), and the
Lie-algebra routine returns generator objects convertible to fixed-order
Pauli strings, supplied here as character sequences. -/
structure LieOracle where
  trainable_nodes : Option (List Nat)
  generators : List (List Char)
deriving DecidableEq

/-- The Lie-algebra deriver `calculate_lie_algebra` (lines 147 to 171).
The boolean of the result records whether the external routine
`mp.utils.calculate_lie_algebra` is invoked.  Line 167 tests
`if mp_pattern.trainable_nodes is None:`, an identity test against `None`
only. -/
def calculate_lie_algebra (p : PatternData) (fo : FlowOracle) (lo : LieOracle) :
    Bool × Except PyError (List (List Pauli)) :=
  match graphix_pattern_to_mentpy p fo with
  | Except.error e => (false, Except.error e)
  | Except.ok _circ =>
      match lo.trainable_nodes with
      | Option.none => (false, Except.error PyError.valueError)
      | Option.some _ => (true, _mentpy_pauli_to_graphix_pauli lo.generators)

/-- A two-node pattern: node 0 is measured in plane XY at the concrete
nonzero angle 1, node 1 is the output. -/
def pat1 : PatternData :=
  PatternData.mk [0, 1] [(0, 1)] (Option.some [0]) [1]
    [(0, Plane.XY)] [(0, GAngle.num 1)]

/-- A flow oracle reporting a nonempty plain-flow witness. -/
def oracleFlow : FlowOracle :=
  FlowOracle.mk (Option.some [(0, 1)]) (Option.some [])

/-- The circuit the converter builds from `pat1`: the descriptor of node 0
carries the boolean `False` as its angle. -/
def circ1val : MBQCircuit :=
  MBQCircuit.mk [0, 1] [(0, 1)] [0] [1]
    [(0, Option.some (Ment.mk (MpAngle.bool false) PlaneLabel.XY))]

/-- Like `pat1` but node 0 carries a symbolic expression angle. -/
def pat2 : PatternData :=
  PatternData.mk [0, 1] [(0, 1)] (Option.some [0]) [1]
    [(0, Plane.XY)] [(0, GAngle.expr (GExpr.mk 0))]

/-- Like `pat1` but node 0 is measured at angle 0. -/
def pat9 : PatternData :=
  PatternData.mk [0, 1] [(0, 1)] (Option.some [0]) [1]
    [(0, Plane.XY)] [(0, GAngle.num 0)]

/-- The circuit the converter builds from `pat9`. -/
def circ9val : MBQCircuit :=
  MBQCircuit.mk [0, 1] [(0, 1)] [0] [1]
    [(0, Option.some (Ment.mk MpAngle.none PlaneLabel.XY))]

/-- The identity pattern: its single node is both input and output, and
nothing is measured. -/
def idPattern : PatternData :=
  PatternData.mk [0] [] (Option.some [0]) [0] [] []

/-- Oracle for `idPattern`: both flow finders report a witness, namely the
empty correction map (there is no non-output node to order). -/
def emptyWitnessOracle : FlowOracle :=
  FlowOracle.mk (Option.some []) (Option.some [])

/-- A circuit with one measured node and one entry that is `None`. -/
def c10circ : MBQCircuit :=
  MBQCircuit.mk [0, 1] [(0, 1)] [0] [1]
    [(0, Option.some (Ment.mk MpAngle.none PlaneLabel.XY)), (1, Option.none)]

/-- The line 57 guard is constantly false: it tests the integer keys of the
angle dict, and an integer is never an `Expression`. -/
theorem expressionGuard_false (as : List (Nat × GAngle)) : expressionGuard as = false := by
  simp [expressionGuard, pyIsinstanceExpression]

/-- Unfolding of the pattern-to-circuit converter, using that the symbolic
guard never fires. -/
theorem converter_eq (p : PatternData) (o : FlowOracle) :
    graphix_pattern_to_mentpy p o =
      (match buildMeasurements p.output_nodes p.meas_angles p.meas_planes with
      | Except.error e => Except.error e
      | Except.ok ms =>
          if !(pyTruthy o.flow || pyTruthy o.gflow) then
            Except.error PyError.valueError
          else
            Except.ok (MBQCircuit.mk p.nodes p.edges (p.input_nodes.getD [])
              p.output_nodes ms)) := by
  simp only [graphix_pattern_to_mentpy, expressionGuard_false, Bool.false_eq_true, if_false]

/-- Keys of the measurement map built by the loop of lines 60 to 66: when
the loop succeeds, a node has an entry exactly when it is a key of the
plane dict and is not an output node. -/
theorem buildMeasurements_ok_keys (vout : List Nat) (angles : List (Nat × GAngle))
    (planes : List (Nat × Plane)) :
    ∀ ms : List (Nat × Option Ment),
      buildMeasurements vout angles planes = Except.ok ms →
      ∀ n : Nat, (n ∈ ms.map Prod.fst ↔ (n ∈ planes.map Prod.fst ∧ n ∉ vout)) := by
  induction planes with
  | nil =>
      intro ms h n
      simp only [buildMeasurements] at h
      injection h with h1
      rw [← h1]
      simp
  | cons hd rest ih =>
      obtain ⟨i, plane⟩ := hd
      intro ms h n
      simp only [buildMeasurements] at h
      by_cases hiv : i ∈ vout
      · rw [if_pos hiv] at h
        rw [ih ms h n]
        simp only [List.map_cons, List.mem_cons]
        constructor
        · rintro ⟨hn, hnv⟩
          exact ⟨Or.inr hn, hnv⟩
        · rintro ⟨hn | hn, hnv⟩
          · subst hn
            exact absurd hiv hnv
          · exact ⟨hn, hnv⟩
      · rw [if_neg hiv] at h
        cases hm : mentForNode angles i plane with
        | error e =>
            rw [hm] at h
            exact Except.noConfusion h
        | ok m =>
            rw [hm] at h
            cases hr : buildMeasurements vout angles rest with
            | error e =>
                rw [hr] at h
                exact Except.noConfusion h
            | ok tail =>
                rw [hr] at h
                injection h with h1
                rw [← h1]
                simp only [List.map_cons, List.mem_cons]
                by_cases hni : n = i
                · subst hni
                  simp [hiv]
                · simp only [hni, false_or]
                  exact ih tail hr n

/-- When the converter returns a circuit, its measurement dict is the one
built by the loop. -/
theorem converter_ok_build (p : PatternData) (o : FlowOracle) (c : MBQCircuit)
    (h : graphix_pattern_to_mentpy p o = Except.ok c) :
    buildMeasurements p.output_nodes p.meas_angles p.meas_planes =
      Except.ok c.measurements := by
  rw [converter_eq] at h
  cases hbm : buildMeasurements p.output_nodes p.meas_angles p.meas_planes with
  | error e =>
      rw [hbm] at h
      exact Except.noConfusion h
  | ok ms =>
      rw [hbm] at h
      have h2 : (if (!(pyTruthy o.flow || pyTruthy o.gflow)) = true then
            Except.error PyError.valueError
          else
            Except.ok (MBQCircuit.mk p.nodes p.edges (p.input_nodes.getD [])
              p.output_nodes ms)) = Except.ok c := h
      by_cases ht : (!(pyTruthy o.flow || pyTruthy o.gflow)) = true
      · rw [if_pos ht] at h2
        exact Except.noConfusion h2
      · rw [if_neg ht] at h2
        injection h2 with h1
        rw [← h1]

/-- Claim C1: the converter is claimed to record each non-output node
measurement angle in its descriptor.  The code does not: on `pat1`, whose
node 0 has angle 1, the constructed descriptor angle is the Python boolean
`False` (the walrus operator on line 64 binds `angle` to the conjunction
`float(meas_angles[i]) == 0.0 and plane_str == "XY"`). -/
theorem c1_angle_not_copied :
    pat1.meas_angles.lookup 0 = Option.some (GAngle.num 1) ∧
    graphix_pattern_to_mentpy pat1 oracleFlow = Except.ok circ1val ∧
    circ1val.measurements =
      [(0, Option.some (Ment.mk (MpAngle.bool false) PlaneLabel.XY))] := by
  decide

/-- Claim C2: the symbolic-angle guard of line 57 iterates the keys of the
angle dict, so it is constantly false; on the symbolic pattern `pat2` the
value-level guard the specification describes is true, yet the converter
raises TypeError from the float coercion instead of NotImplementedError. -/
theorem c2_expression_guard_vacuous :
    (∀ as : List (Nat × GAngle), expressionGuard as = false) ∧
    valueExpressionGuard pat2.meas_angles = true ∧
    graphix_pattern_to_mentpy pat2 oracleFlow = Except.error PyError.typeError := by
  refine ⟨?_, by decide, by decide⟩
  intro as
  simp [expressionGuard, pyIsinstanceExpression]

/-- Claim C3, counterexample: on the identity pattern both flow finders
report a witness (the empty correction map), yet the converter raises the
no-flow ValueError, because line 69 tests Python truthiness and an empty
dict is falsy. -/
theorem c3_counterexample :
    emptyWitnessOracle.flow.isSome = true ∧
    emptyWitnessOracle.gflow.isSome = true ∧
    graphix_pattern_to_mentpy idPattern emptyWitnessOracle =
      Except.error PyError.valueError := by
  decide

/-- Claim C5: a circuit whose trainable-node accessor reports the empty
collection carries no trainable node, yet `calculate_lie_algebra` does not
raise and invokes the external Lie-algebra routine; the code raises only
when the accessor yields `None` (line 167 is an identity test). -/
theorem c5_empty_trainable_not_rejected :
    calculate_lie_algebra pat9 oracleFlow (LieOracle.mk (Option.some []) []) =
      (true, Except.ok []) ∧
    calculate_lie_algebra pat9 oracleFlow (LieOracle.mk Option.none []) =
      (false, Except.error PyError.valueError) := by
  decide

/-- Claim C3, amended: for a pattern whose measurement-descriptor loop
succeeds (in particular for any well-formed pattern with no symbolic
angles), the converter raises the no-flow ValueError if and only if
neither flow finder returns a nonempty witness — Python truthiness of
line 69 treats a present-but-empty witness as absent; when the error is
raised no circuit is returned, the result being the error alone. -/
theorem c3_no_flow_error_iff (p : PatternData) (oracle : FlowOracle)
    (h : ∃ ms, buildMeasurements p.output_nodes p.meas_angles p.meas_planes =
      Except.ok ms) :
    (graphix_pattern_to_mentpy p oracle = Except.error PyError.valueError ↔
      (pyTruthy oracle.flow = false ∧ pyTruthy oracle.gflow = false)) := by
  obtain ⟨ms, hms⟩ := h
  rw [converter_eq, hms]
  cases hf : pyTruthy oracle.flow <;> cases hg : pyTruthy oracle.gflow <;> simp

/-- Witness for claim C3: on `pat9` with both flow finders reporting no
witness at all, the converter raises the no-flow ValueError. -/
theorem c3_witness :
    graphix_pattern_to_mentpy pat9 (FlowOracle.mk Option.none Option.none) =
      Except.error PyError.valueError :=
  (c3_no_flow_error_iff pat9 (FlowOracle.mk Option.none Option.none)
    ⟨[(0, Option.some (Ment.mk MpAngle.none PlaneLabel.XY))], by decide⟩).mpr
    (by decide)

/-- Claim C9: when the converter returns a circuit and the input pattern is
well formed (every non-output node is a key of the plane dict), a node of
the pattern has an entry in the circuit measurement dict exactly when it
is not an output node. -/
theorem c9_measured_iff_not_output (p : PatternData) (oracle : FlowOracle)
    (c : MBQCircuit)
    (hok : graphix_pattern_to_mentpy p oracle = Except.ok c)
    (hwf : ∀ n, n ∈ p.nodes → n ∉ p.output_nodes → n ∈ p.meas_planes.map Prod.fst)
    (n : Nat) (hn : n ∈ p.nodes) :
    (n ∈ c.measurements.map Prod.fst ↔ n ∉ p.output_nodes) := by
  have hb := converter_ok_build p oracle c hok
  rw [buildMeasurements_ok_keys p.output_nodes p.meas_angles p.meas_planes
    c.measurements hb n]
  constructor
  · rintro ⟨_, hnv⟩
    exact hnv
  · intro hnv
    exact ⟨hwf n hn hnv, hnv⟩

/-- Witness for claim C9: on `pat9` the converted circuit measures node 0,
which is not an output node. -/
theorem c9_witness :
    ((0 : Nat) ∈ circ9val.measurements.map Prod.fst ↔
      (0 : Nat) ∉ pat9.output_nodes) :=
  c9_measured_iff_not_output pat9 oracleFlow circ9val (by decide) (by decide)
    0 (by decide)

/-- When the loop of lines 94 to 101 succeeds, every non-None descriptor
has been converted: its plane label is in the conversion dict and the
output contains the corresponding measurement, with the coerced angle. -/
theorem buildGM_ok_mem (ms : List (Nat × Option Ment)) :
    ∀ out : List (Nat × Measurement),
      buildGraphixMeasurements ms = Except.ok out →
      ∀ (i : Nat) (ment : Ment), (i, Option.some ment) ∈ ms →
        ∃ pl, conversion_dict ment.plane = Option.some pl ∧
          (i, Measurement.mk (coerceAngle ment.angle) pl) ∈ out := by
  induction ms with
  | nil =>
      intro out _ i ment hm
      simp at hm
  | cons hd rest ih =>
      obtain ⟨j, mo⟩ := hd
      intro out h i ment hm
      cases mo with
      | none =>
          rcases List.mem_cons.mp hm with heq | hmem
          · simp at heq
          · exact ih out h i ment hmem
      | some m2 =>
          cases hcd : conversion_dict m2.plane with
          | none =>
              have hred : buildGraphixMeasurements ((j, Option.some m2) :: rest) =
                  Except.error PyError.valueError := by
                simp [buildGraphixMeasurements, hcd]
              rw [hred] at h
              exact Except.noConfusion h
          | some pl =>
              cases hr : buildGraphixMeasurements rest with
              | error e =>
                  have hred : buildGraphixMeasurements ((j, Option.some m2) :: rest) =
                      Except.error e := by
                    simp [buildGraphixMeasurements, hcd, hr]
                  rw [hred] at h
                  exact Except.noConfusion h
              | ok tail =>
                  have hred : buildGraphixMeasurements ((j, Option.some m2) :: rest) =
                      Except.ok ((j, Measurement.mk (coerceAngle m2.angle) pl) :: tail) := by
                    simp [buildGraphixMeasurements, hcd, hr]
                  rw [hred] at h
                  injection h with h1
                  rcases List.mem_cons.mp hm with heq | hmem
                  · injection heq with hi hsm
                    injection hsm with hm2
                    subst hi
                    subst hm2
                    refine ⟨pl, hcd, ?_⟩
                    rw [← h1]
                    exact List.mem_cons_self _ _
                  · obtain ⟨pl2, hpl2, hmem2⟩ := ih tail hr i ment hmem
                    refine ⟨pl2, hpl2, ?_⟩
                    rw [← h1]
                    exact List.mem_cons_of_mem _ hmem2

/-- If some non-None descriptor has a plane label outside the conversion
dict, the loop of lines 94 to 101 raises ValueError. -/
theorem buildGM_bad_error (ms : List (Nat × Option Ment))
    (h : ∃ i ment, (i, Option.some ment) ∈ ms ∧ conversion_dict ment.plane = Option.none) :
    buildGraphixMeasurements ms = Except.error PyError.valueError := by
  induction ms with
  | nil =>
      obtain ⟨i, ment, hm, _⟩ := h
      simp at hm
  | cons hd rest ih =>
      obtain ⟨j, mo⟩ := hd
      obtain ⟨i, ment, hm, hbad⟩ := h
      cases mo with
      | none =>
          rcases List.mem_cons.mp hm with heq | hmem
          · simp at heq
          · have hrest := ih ⟨i, ment, hmem, hbad⟩
            simp [buildGraphixMeasurements, hrest]
      | some m2 =>
          rcases List.mem_cons.mp hm with heq | hmem
          · injection heq with hi hsm
            injection hsm with hm2
            subst hm2
            simp [buildGraphixMeasurements, hbad]
          · have hrest := ih ⟨i, ment, hmem, hbad⟩
            cases hcd : conversion_dict m2.plane with
            | none => simp [buildGraphixMeasurements, hcd]
            | some pl => simp [buildGraphixMeasurements, hcd, hrest]

/-- If every non-None descriptor has a recognized plane label, the loop of
lines 94 to 101 succeeds, and the nodes of its output are exactly the
nodes with non-None descriptors; None entries are skipped silently. -/
theorem buildGM_good_ok (ms : List (Nat × Option Ment))
    (hgood : ∀ i ment, (i, Option.some ment) ∈ ms →
      (conversion_dict ment.plane).isSome = true) :
    ∃ out, buildGraphixMeasurements ms = Except.ok out ∧
      ∀ n : Nat, (n ∈ out.map Prod.fst ↔ ∃ ment, (n, Option.some ment) ∈ ms) := by
  induction ms with
  | nil =>
      refine ⟨[], rfl, ?_⟩
      intro n
      simp
  | cons hd rest ih =>
      obtain ⟨j, mo⟩ := hd
      have hgoodrest : ∀ i ment, (i, Option.some ment) ∈ rest →
          (conversion_dict ment.plane).isSome = true :=
        fun i ment hm => hgood i ment (List.mem_cons_of_mem _ hm)
      obtain ⟨out, hout, hkeys⟩ := ih hgoodrest
      cases mo with
      | none =>
          refine ⟨out, by simp [buildGraphixMeasurements, hout], ?_⟩
          intro n
          rw [hkeys n]
          constructor
          · rintro ⟨ment, hm⟩
            exact ⟨ment, List.mem_cons_of_mem _ hm⟩
          · rintro ⟨ment, hm⟩
            rcases List.mem_cons.mp hm with heq | hmem
            · simp at heq
            · exact ⟨ment, hmem⟩
      | some m2 =>
          have hj := hgood j m2 (List.mem_cons_self _ _)
          cases hcd : conversion_dict m2.plane with
          | none =>
              rw [hcd] at hj
              simp at hj
          | some pl =>
              refine ⟨(j, Measurement.mk (coerceAngle m2.angle) pl) :: out,
                by simp [buildGraphixMeasurements, hcd, hout], ?_⟩
              intro n
              simp only [List.map_cons, List.mem_cons]
              constructor
              · rintro (hn | hn)
                · exact ⟨m2, Or.inl (by rw [hn])⟩
                · obtain ⟨ment, hm⟩ := (hkeys n).mp hn
                  exact ⟨ment, Or.inr hm⟩
              · rintro ⟨ment, heq | hmem⟩
                · injection heq with h1 _
                  exact Or.inl h1
                · exact Or.inr ((hkeys n).mpr ⟨ment, hmem⟩)

/-- Every measurement the loop of lines 94 to 101 emits originates from a
non-None descriptor of the input, keeps its node index, and carries the
coerced angle of that descriptor. -/
theorem buildGM_out_src (ms : List (Nat × Option Ment)) :
    ∀ out : List (Nat × Measurement),
      buildGraphixMeasurements ms = Except.ok out →
      ∀ e ∈ out, ∃ i ment, (i, Option.some ment) ∈ ms ∧ e.1 = i ∧
        e.2.angle = coerceAngle ment.angle := by
  induction ms with
  | nil =>
      intro out h e he
      injection h with h1
      rw [← h1] at he
      simp at he
  | cons hd rest ih =>
      obtain ⟨j, mo⟩ := hd
      intro out h e he
      cases mo with
      | none =>
          obtain ⟨i, ment, hm, h1, h2⟩ := ih out h e he
          exact ⟨i, ment, List.mem_cons_of_mem _ hm, h1, h2⟩
      | some m2 =>
          cases hcd : conversion_dict m2.plane with
          | none =>
              have hred : buildGraphixMeasurements ((j, Option.some m2) :: rest) =
                  Except.error PyError.valueError := by
                simp [buildGraphixMeasurements, hcd]
              rw [hred] at h
              exact Except.noConfusion h
          | some pl =>
              cases hr : buildGraphixMeasurements rest with
              | error e2 =>
                  have hred : buildGraphixMeasurements ((j, Option.some m2) :: rest) =
                      Except.error e2 := by
                    simp [buildGraphixMeasurements, hcd, hr]
                  rw [hred] at h
                  exact Except.noConfusion h
              | ok tail =>
                  have hred : buildGraphixMeasurements ((j, Option.some m2) :: rest) =
                      Except.ok ((j, Measurement.mk (coerceAngle m2.angle) pl) :: tail) := by
                    simp [buildGraphixMeasurements, hcd, hr]
                  rw [hred] at h
                  injection h with h1
                  rw [← h1] at he
                  rcases List.mem_cons.mp he with heq | hmem
                  · subst heq
                    exact ⟨j, m2, List.mem_cons_self _ _, rfl, rfl⟩
                  · obtain ⟨i, ment, hm, ha, hb⟩ := ih tail hr e hmem
                    exact ⟨i, ment, List.mem_cons_of_mem _ hm, ha, hb⟩

/-- Claim C4: the plane-label table of line 93 maps XY, YZ, XZ to the
same-named planes and the axis aliases X, Y, Z to XZ, YZ, XZ; every
non-None descriptor with a recognized label yields a measurement with the
mapped plane, and any descriptor with an unrecognized label makes the
converter raise ValueError. -/
theorem c4_plane_mapping (ms : List (Nat × Option Ment)) :
    (conversion_dict PlaneLabel.XY = Option.some Plane.XY ∧
     conversion_dict PlaneLabel.YZ = Option.some Plane.YZ ∧
     conversion_dict PlaneLabel.XZ = Option.some Plane.XZ ∧
     conversion_dict PlaneLabel.X = Option.some Plane.XZ ∧
     conversion_dict PlaneLabel.Y = Option.some Plane.YZ ∧
     conversion_dict PlaneLabel.Z = Option.some Plane.XZ ∧
     (∀ k : Nat, conversion_dict (PlaneLabel.other k) = Option.none)) ∧
    (∀ out, buildGraphixMeasurements ms = Except.ok out →
      ∀ (i : Nat) (ment : Ment), (i, Option.some ment) ∈ ms →
        ∃ pl, conversion_dict ment.plane = Option.some pl ∧
          (i, Measurement.mk (coerceAngle ment.angle) pl) ∈ out) ∧
    ((∃ i ment, (i, Option.some ment) ∈ ms ∧
        conversion_dict ment.plane = Option.none) →
      buildGraphixMeasurements ms = Except.error PyError.valueError) :=
  ⟨⟨rfl, rfl, rfl, rfl, rfl, rfl, fun _ => rfl⟩,
   buildGM_ok_mem ms, buildGM_bad_error ms⟩

/-- Witness for claim C4: a single descriptor with the axis label X maps
to the XZ plane. -/
theorem c4_witness :
    ∃ pl, conversion_dict (Ment.mk (MpAngle.num 0) PlaneLabel.X).plane =
        Option.some pl ∧
      ((0 : Nat), Measurement.mk
          (coerceAngle (Ment.mk (MpAngle.num 0) PlaneLabel.X).angle) pl) ∈
        [((0 : Nat), Measurement.mk (MpAngle.num 0) Plane.XZ)] :=
  (c4_plane_mapping [((0 : Nat), Option.some (Ment.mk (MpAngle.num 0) PlaneLabel.X))]).2.1
    [((0 : Nat), Measurement.mk (MpAngle.num 0) Plane.XZ)] (by decide)
    0 (Ment.mk (MpAngle.num 0) PlaneLabel.X) (by decide)

/-- Claim C7: every measurement the circuit-to-pattern converter emits
carries the angle of its descriptor when that angle is a concrete number
or an expression, and the angle zero otherwise (missing or undefined
angle); no other coercion is applied. -/
theorem c7_angle_default (ms : List (Nat × Option Ment))
    (out : List (Nat × Measurement))
    (hok : buildGraphixMeasurements ms = Except.ok out) :
    ∀ e ∈ out, ∃ i ment, (i, Option.some ment) ∈ ms ∧ e.1 = i ∧
      e.2.angle = (if isinstanceExpressionOrFloat ment.angle = true then
        ment.angle else MpAngle.num 0) := by
  intro e he
  obtain ⟨i, ment, hm, h1, h2⟩ := buildGM_out_src ms out hok e he
  exact ⟨i, ment, hm, h1, h2⟩

/-- Witness for claim C7: a descriptor with angle None yields the angle
zero in the produced measurement. -/
theorem c7_witness :
    ∃ i ment,
      (i, Option.some ment) ∈
        [((0 : Nat), Option.some (Ment.mk MpAngle.none PlaneLabel.XY))] ∧
      ((0 : Nat), Measurement.mk (MpAngle.num 0) Plane.XY).1 = i ∧
      ((0 : Nat), Measurement.mk (MpAngle.num 0) Plane.XY).2.angle =
        (if isinstanceExpressionOrFloat ment.angle = true then
          ment.angle else MpAngle.num 0) :=
  c7_angle_default [((0 : Nat), Option.some (Ment.mk MpAngle.none PlaneLabel.XY))]
    [((0 : Nat), Measurement.mk (MpAngle.num 0) Plane.XY)] (by decide)
    ((0 : Nat), Measurement.mk (MpAngle.num 0) Plane.XY) (by decide)

/-- Claim C10: when every non-None descriptor has a recognized plane, the
circuit-to-pattern converter succeeds without any error for the None
entries, and the open-graph measurement map holds exactly the nodes with
non-None descriptors. -/
theorem c10_none_skipped (c : MBQCircuit)
    (hgood : ∀ i ment, (i, Option.some ment) ∈ c.measurements →
      (conversion_dict ment.plane).isSome = true) :
    ∃ og, mentpy_to_graphix_pattern c = Except.ok og ∧
      ∀ n : Nat, (n ∈ og.measurements.map Prod.fst ↔
        ∃ ment, (n, Option.some ment) ∈ c.measurements) := by
  obtain ⟨out, hout, hkeys⟩ := buildGM_good_ok c.measurements hgood
  refine ⟨OpenGraphData.mk c.graph_nodes c.graph_edges out c.input_nodes
    c.output_nodes, ?_, hkeys⟩
  simp [mentpy_to_graphix_pattern, hout]

/-- Witness for claim C10: a circuit with one measured node and one None
entry converts, and only the measured node appears in the open graph map. -/
theorem c10_witness :
    ∃ og, mentpy_to_graphix_pattern c10circ = Except.ok og ∧
      ∀ n : Nat, (n ∈ og.measurements.map Prod.fst ↔
        ∃ ment, (n, Option.some ment) ∈ c10circ.measurements) :=
  c10_none_skipped c10circ (by
    intro i ment hm
    simp only [c10circ, List.mem_cons, List.not_mem_nil, or_false,
      Prod.mk.injEq, Option.some.injEq, reduceCtorEq, and_false] at hm
    obtain ⟨h1, h2⟩ := hm
    subst h2
    rfl)

/-- The character decoder of lines 132 to 142 succeeds with the table value
on an accepted character and raises ValueError on any other character. -/
theorem pauliOfChar_eq (c : Char) :
    (goodChar c = true → pauliOfChar c = Except.ok (charPauli c)) ∧
    (goodChar c = false → pauliOfChar c = Except.error PyError.valueError) := by
  by_cases h1 : c = 'X'
  · simp [goodChar, pauliOfChar, charPauli, h1]
  · by_cases h2 : c = 'Y'
    · simp [goodChar, pauliOfChar, charPauli, h1, h2]
    · by_cases h3 : c = 'Z'
      · simp [goodChar, pauliOfChar, charPauli, h1, h2, h3]
      · by_cases h4 : c = 'I'
        · simp [goodChar, pauliOfChar, charPauli, h1, h2, h3, h4]
        · simp [goodChar, pauliOfChar, charPauli, h1, h2, h3, h4]

/-- On a generator whose characters are all accepted, the inner loop
returns the character-wise Pauli list, in order. -/
theorem decodeGenerator_ok (g : List Char) (hg : ∀ c ∈ g, goodChar c = true) :
    decodeGenerator g = Except.ok (g.map charPauli) := by
  induction g with
  | nil => rfl
  | cons c rest ih =>
      have hc := (pauliOfChar_eq c).1 (hg c (List.mem_cons_self _ _))
      have hrest := ih (fun x hx => hg x (List.mem_cons_of_mem _ hx))
      simp [decodeGenerator, hc, hrest]

/-- On a generator containing a rejected character, the inner loop raises
ValueError. -/
theorem decodeGenerator_err (g : List Char) (hg : ∃ c ∈ g, goodChar c = false) :
    decodeGenerator g = Except.error PyError.valueError := by
  induction g with
  | nil =>
      obtain ⟨c, hc, _⟩ := hg
      simp at hc
  | cons c rest ih =>
      by_cases hcg : goodChar c = true
      · have hc := (pauliOfChar_eq c).1 hcg
        obtain ⟨d, hd, hdg⟩ := hg
        rcases List.mem_cons.mp hd with heq | hmem
        · subst heq
          rw [hdg] at hcg
          exact Bool.noConfusion hcg
        · have hrest := ih ⟨d, hmem, hdg⟩
          simp [decodeGenerator, hc, hrest]
      · have hcf : goodChar c = false := by simpa using hcg
        have hc := (pauliOfChar_eq c).2 hcf
        simp [decodeGenerator, hc]

/-- When every character of every generator is accepted, the decoder maps
each generator to its character-wise Pauli list. -/
theorem decode_all_ok (gens : List (List Char))
    (hg : ∀ g ∈ gens, ∀ c ∈ g, goodChar c = true) :
    _mentpy_pauli_to_graphix_pauli gens =
      Except.ok (gens.map (fun g => g.map charPauli)) := by
  induction gens with
  | nil => rfl
  | cons g rest ih =>
      have h1 := decodeGenerator_ok g (hg g (List.mem_cons_self _ _))
      have h2 := ih (fun x hx => hg x (List.mem_cons_of_mem _ hx))
      simp [_mentpy_pauli_to_graphix_pauli, h1, h2]

/-- When some generator contains a rejected character, the decoder raises
ValueError. -/
theorem decode_some_bad (gens : List (List Char))
    (hg : ∃ g ∈ gens, ∃ c ∈ g, goodChar c = false) :
    _mentpy_pauli_to_graphix_pauli gens = Except.error PyError.valueError := by
  induction gens with
  | nil =>
      obtain ⟨g, hgm, _⟩ := hg
      simp at hgm
  | cons g rest ih =>
      obtain ⟨g0, hg0, hbad⟩ := hg
      rcases List.mem_cons.mp hg0 with heq | hmem
      · subst heq
        have h1 := decodeGenerator_err g0 hbad
        simp [_mentpy_pauli_to_graphix_pauli, h1]
      · have h2 := ih ⟨g0, hmem, hbad⟩
        by_cases hall : ∀ c ∈ g, goodChar c = true
        · have h1 := decodeGenerator_ok g hall
          simp [_mentpy_pauli_to_graphix_pauli, h1, h2]
        · push_neg at hall
          obtain ⟨c, hcm, hcf⟩ := hall
          have h1 := decodeGenerator_err g ⟨c, hcm, by simpa using hcf⟩
          simp [_mentpy_pauli_to_graphix_pauli, h1]

/-- Claim C6: the Pauli decoder returns, for each generator, one Pauli
label per character of its string form, in the same order, with I, X, Y, Z
mapped to the same-named labels, and it raises ValueError exactly when
some character lies outside the accepted set. -/
theorem c6_pauli_decode (gens : List (List Char)) :
    ((∀ g ∈ gens, ∀ c ∈ g, goodChar c = true) →
      _mentpy_pauli_to_graphix_pauli gens =
        Except.ok (gens.map (fun g => g.map charPauli))) ∧
    ((∃ g ∈ gens, ∃ c ∈ g, goodChar c = false) ↔
      _mentpy_pauli_to_graphix_pauli gens = Except.error PyError.valueError) := by
  refine ⟨decode_all_ok gens, decode_some_bad gens, ?_⟩
  intro herr
  by_contra hno
  push_neg at hno
  have hok := decode_all_ok gens (fun g hgm c hcm => by simpa using hno g hgm c hcm)
  rw [hok] at herr
  exact Except.noConfusion herr

/-- Witness for claim C6: the generator string XI decodes to the Pauli
labels X and I, one per character and in order. -/
theorem c6_witness :
    _mentpy_pauli_to_graphix_pauli [['X', 'I']] =
      Except.ok [[Pauli.X, Pauli.I]] :=
  (c6_pauli_decode [['X', 'I']]).1 (by decide)

end GraphixMentpy
